import Mathlib

/-!
Verification of the async_bash scheduler (src/src/scheduler/async-bash.ts)
against its natural-language specification.

Shallow embedding conventions:
* timestamps are natural numbers (the code stores ISO strings and converts
  them back to epoch milliseconds via `parseTime`; we keep the milliseconds);
* file contents are byte sequences modelled as `List Char` (the code reads
  raw byte buffers and decodes them as UTF-8; every literal involved here is
  ASCII, so one `Char` stands for one byte);
* the in-process file system is a total map from paths to contents;
* machine integers do not overflow in any quantity involved (byte counts,
  timestamps), so `Nat`/`Int` are used directly.
-/

/-- Job status enumeration (`AsyncBashStatus` in async-bash.ts, line 8). -/
inductive AsyncBashStatus
  | queued
  | running
  | completed
  | failed
  | timeout
  | cancelled
deriving DecidableEq, Repr

/-- The embedded `progress` sub-record of a job (async-bash.ts, lines 27-35). -/
structure AsyncBashProgress where
  lastReportAt : Option Nat := none
  lastOutputAt : Option Nat := none
  totalBytes : Nat := 0
  totalLines : Nat := 0
  deltaBytesSinceReport : Nat := 0
  deltaLinesSinceReport : Nat := 0
  reportsSent : Nat := 0
deriving DecidableEq, Repr

/-- A persisted job descriptor (`AsyncBashJob` in async-bash.ts, lines 10-36).
The `channel` field is the constant `"telegram"` and is omitted. -/
structure AsyncBashJob where
  id : String
  command : String
  workdir : Option String := none
  timeoutMs : Nat
  createdAt : Nat
  updatedAt : Nat
  status : AsyncBashStatus
  userID : String
  sessionID : Option String := none
  outputFile : Option String := none
  startedAt : Option Nat := none
  finishedAt : Option Nat := none
  exitCode : Option Int := none
  error : Option String := none
  completionNotifiedAt : Option Nat := none
  progress : Option AsyncBashProgress := none
deriving DecidableEq, Repr

/-- `parseTime` (async-bash.ts, lines 60-64): an absent timestamp parses to 0. -/
def parseTime : Option Nat → Nat
  | some t => t
  | none => 0

/-- `saveJob` (async-bash.ts, lines 104-107): every persist refreshes
`updatedAt` before writing the record. -/
def saveJob (now : Nat) (job : AsyncBashJob) : AsyncBashJob :=
  { job with updatedAt := now }

/-- The timeout error message `Timed out after <timeoutMs>ms`
(async-bash.ts, line 342). -/
def timeoutErrorText (timeoutMs : Nat) : String :=
  "Timed out after " ++ toString timeoutMs ++ "ms"

/-- Finalization of a finished worker (async-bash.ts, lines 337-347):
`exitCode` and `finishedAt` are assigned first, then the status is chosen,
`timedOut` taking precedence over the exit code. -/
def finalizeJob (job : AsyncBashJob) (timedOut : Bool) (exitCode : Option Int)
    (now : Nat) : AsyncBashJob :=
  let j := { job with exitCode := exitCode, finishedAt := some now }
  if timedOut then
    { j with status := AsyncBashStatus.timeout,
             error := some (timeoutErrorText job.timeoutMs) }
  else if exitCode = some 0 then
    { j with status := AsyncBashStatus.completed }
  else
    { j with status := AsyncBashStatus.failed }

/-- Error message written by the recovery pass (async-bash.ts, line 239). -/
def restartedErrorText : String := "Worker restarted while command was running."

/-- Recovery of one persisted job (async-bash.ts, lines 234-242): a job that
is `running` with no `completionNotifiedAt` is forced to `failed` with the
restart error, stamped, and persisted; any other job is left unchanged. -/
def markInterruptedJob (now : Nat) (job : AsyncBashJob) : AsyncBashJob :=
  if job.status = AsyncBashStatus.running ∧ job.completionNotifiedAt = none then
    saveJob now
      { job with status := AsyncBashStatus.failed,
                 error := some restartedErrorText,
                 finishedAt := some now,
                 completionNotifiedAt := some now }
  else job

/-- The recovery pass over the whole store (async-bash.ts, lines 232-245),
returning the rewritten store together with the number of completion
notifications delivered (one per forced job). -/
def markInterruptedJobs (now : Nat) : List AsyncBashJob → List AsyncBashJob × Nat
  | [] => ([], 0)
  | job :: rest =>
    let r := markInterruptedJobs now rest
    if job.status = AsyncBashStatus.running ∧ job.completionNotifiedAt = none then
      (markInterruptedJob now job :: r.1, r.2 + 1)
    else
      (job :: r.1, r.2)

/-- Strip every trailing slash (the `replace(/\/+$/g, "")` step of the
repository's `joinPath`, src/unnamed/part_001 lines 62-71). -/
def trimSlashEnd (s : String) : String :=
  String.mk ((s.data.reverse.dropWhile (fun c => c = '/')).reverse)

/-- Strip every leading slash (the `replace(/^\/+/, "")` step). -/
def trimSlashStart (s : String) : String :=
  String.mk (s.data.dropWhile (fun c => c = '/'))

/-- `joinPath` as implemented in this repository (src/unnamed/part_001,
lines 62-71): drop empty parts, strip trailing slashes from the first part
and surrounding slashes from the rest, drop parts that became empty, and
join the remainder with "/". -/
def joinPath (parts : List String) : String :=
  let kept := parts.filter (fun p => p ≠ "")
  let cleaned := kept.enum.map (fun pe =>
    if pe.1 = 0 then trimSlashEnd pe.2 else trimSlashEnd (trimSlashStart pe.2))
  String.intercalate "/" (cleaned.filter (fun p => p ≠ ""))

/-- The scheduler's output directory `<queueDir>/output`
(async-bash.ts, line 185). -/
def outputDirOf (queueDir : String) : String := joinPath [queueDir, "output"]

/-- The character class removed by JavaScript's `String.prototype.trim`:
ASCII whitespace plus NBSP and the BOM. -/
def isJSWhitespace (c : Char) : Bool :=
  c = ' ' || c = '\t' || c = '\n' || c = '\r' ||
  c = Char.ofNat 11 || c = Char.ofNat 12 || c = Char.ofNat 160 ||
  c = Char.ofNat 65279

/-- JavaScript's `trim()`: drop leading and trailing whitespace. -/
def jsTrim (s : String) : String :=
  String.mk
    (((s.data.dropWhile isJSWhitespace).reverse.dropWhile
      isJSWhitespace).reverse)

/-- Output-file selection of `startOneJob` (async-bash.ts, line 250): reuse a
non-blank `outputFile` already on the descriptor, otherwise generate
`<outputDir>/<id>.log`. -/
def chooseOutputFile (outputDir : String) (job : AsyncBashJob) : String :=
  match job.outputFile with
  | some f =>
    if 0 < (jsTrim f).length then f else joinPath [outputDir, job.id ++ ".log"]
  | none => joinPath [outputDir, job.id ++ ".log"]

/-- The header block appended before any output (async-bash.ts, line 252).
The start time is rendered from the numeric timestamp. -/
def headerText (id command : String) (now : Nat) : String :=
  "# async_bash " ++ id ++ "\n# started=" ++ toString now ++
    "\n# command=" ++ command ++ "\n\n"

/-- The log-sink file system: a total map from path to byte content. -/
def LogFS : Type := String → List Char

/-- `appendFile`: append bytes to one path, leaving every other path
untouched. -/
def fsAppend (fs : LogFS) (path : String) (text : List Char) : LogFS :=
  fun p => if p = path then fs p ++ text else fs p

/-- A freshly enqueued job descriptor as written by the async_bash enqueue
tool (src/unnamed/part_001, lines 185-220): status `queued`, no exit code,
no output file, zeroed progress, `timeoutMs = max 1000 (requested)`. -/
def enqueueJob (id command : String) (workdir : Option String)
    (timeoutMsRaw : Nat) (userID : String) (sessionID : Option String)
    (now : Nat) : AsyncBashJob :=
  { id := id, command := command, workdir := workdir,
    timeoutMs := max 1000 timeoutMsRaw, createdAt := now, updatedAt := now,
    status := AsyncBashStatus.queued, userID := userID, sessionID := sessionID,
    progress := some {} }

/-- The pre-spawn mutation of `startOneJob` (async-bash.ts, lines 247-259):
status becomes `running`, the chosen output file is recorded, `startedAt`
and `progress.lastReportAt` are set, and the record is persisted. -/
def startOneJobPrepJob (outputDir : String) (job : AsyncBashJob) (now : Nat) :
    AsyncBashJob :=
  saveJob now
    { job with status := AsyncBashStatus.running,
               outputFile := some (chooseOutputFile outputDir job),
               startedAt := some now,
               progress :=
                 some { (job.progress.getD {}) with lastReportAt := some now } }

/-- The file-system effect of the same pre-spawn phase: the header block is
appended to the chosen output file (async-bash.ts, lines 250-252). -/
def startOneJobPrepFS (outputDir : String) (job : AsyncBashJob) (fs : LogFS)
    (now : Nat) : LogFS :=
  fsAppend fs (chooseOutputFile outputDir job)
    (headerText job.id job.command now).data

/-- `countNewlines` (async-bash.ts, lines 66-73): the number of bytes equal
to LF. -/
def countNewlines (s : List Char) : Nat := s.countP (fun c => c = '\n')

/-- `onChunk` (async-bash.ts, lines 281-292): append the chunk verbatim to
the output file and fold it into the progress counters. -/
def onChunk (outputFile : String) (job : AsyncBashJob) (fs : LogFS)
    (chunk : List Char) (now : Nat) : AsyncBashJob × LogFS :=
  let p := job.progress.getD {}
  let p1 : AsyncBashProgress :=
    { p with totalBytes := p.totalBytes + chunk.length,
             totalLines := p.totalLines + countNewlines chunk,
             deltaBytesSinceReport := p.deltaBytesSinceReport + chunk.length,
             deltaLinesSinceReport :=
               p.deltaLinesSinceReport + countNewlines chunk,
             lastOutputAt := some now }
  ({ job with progress := some p1 }, fsAppend fs outputFile chunk)

/-- Outcome of the spawn call (async-bash.ts, line 267). The call is not
wrapped in a try/catch inside `startOneJob`; a throw propagates to the tick
(line 442), which only logs it. -/
inductive SpawnOutcome
  | ok
  | spawnError (msg : String)
deriving DecidableEq, Repr

/-- Outcome of the wait block (async-bash.ts, lines 325-331): the process
exited and the pumps drained (`exited`); `await proc.exited` threw before
an exit code was read (`exitError`); or the output pumps threw after the
exit code was read (`pumpError`). -/
inductive WaitOutcome
  | exited (code : Option Int)
  | exitError (msg : String)
  | pumpError (code : Option Int) (msg : String)
deriving DecidableEq, Repr

/-- The wait-and-finalize block (async-bash.ts, lines 324-347): a thrown
error stores its message in `job.error`; finalization then runs with
whatever exit code had been read before the throw. -/
def finishJob (job : AsyncBashJob) (timedOut : Bool) (w : WaitOutcome)
    (now : Nat) : AsyncBashJob :=
  match w with
  | .exited c => finalizeJob job timedOut c now
  | .exitError m => finalizeJob { job with error := some m } timedOut none now
  | .pumpError c m => finalizeJob { job with error := some m } timedOut c now

/-- The job record persisted at the end of one worker run
(async-bash.ts, lines 247-384): on a spawn throw the last persisted state is
the pre-spawn record (still `running`, error untouched); otherwise the
worker finalizes, records the completion notification time, and persists. -/
def runWorker (outputDir : String) (job : AsyncBashJob) (now finishNow : Nat)
    (sp : SpawnOutcome) (timedOut : Bool) (w : WaitOutcome) : AsyncBashJob :=
  let j := startOneJobPrepJob outputDir job now
  match sp with
  | .spawnError _ => j
  | .ok =>
    saveJob finishNow
      { finishJob j timedOut w finishNow with
          completionNotifiedAt := some finishNow }

/-- Signals the worker can send to its subprocess
(async-bash.ts, lines 311 and 317). -/
inductive Sig
  | term
  | kill
deriving DecidableEq, Repr

/-- Duration of the first timeout timer (async-bash.ts, line 322):
`Math.max(1000, job.timeoutMs || opts.defaultTimeoutMs)`; a zero (falsy)
`timeoutMs` falls back to the configured default. -/
def timerDurationMs (timeoutMs defaultTimeoutMs : Nat) : Nat :=
  max 1000 (if timeoutMs ≠ 0 then timeoutMs else defaultTimeoutMs)

/-- Timer bookkeeping of one worker (the `timedOut`, `timeoutTimer` and
`forceKillTimer` fields of `RunningState`, async-bash.ts lines 47-54,
plus the signals sent so far and whether the process has exited). An armed
timer carries its duration in milliseconds. -/
structure TimerState where
  timedOut : Bool
  timeoutTimer : Option Nat
  forceKillTimer : Option Nat
  exited : Bool
  signals : List Sig
deriving DecidableEq, Repr

/-- Worker timer state right after spawn (async-bash.ts, lines 273-322):
only the first timeout timer is armed. -/
def initTimerState (timeoutMs defaultTimeoutMs : Nat) : TimerState :=
  { timedOut := false,
    timeoutTimer := some (timerDurationMs timeoutMs defaultTimeoutMs),
    forceKillTimer := none, exited := false, signals := [] }

/-- Events acting on the timer state: the first timer fires, the force-kill
timer fires, or the process exits. -/
inductive TimerEvent
  | timeoutFires
  | forceKillFires
  | procExits
deriving DecidableEq, Repr

/-- Timer transitions (async-bash.ts, lines 308-322 and 333-334): when the
armed timeout fires it marks `timedOut`, sends SIGTERM and arms the 5000 ms
force-kill timer; when the armed force-kill timer fires it sends SIGKILL;
a fired one-shot timer is disarmed; process exit cancels both timers and
sends nothing. A disarmed timer firing is a no-op. -/
def timerStep (s : TimerState) : TimerEvent → TimerState
  | TimerEvent.timeoutFires =>
    match s.timeoutTimer with
    | some _ =>
      { s with timedOut := true, timeoutTimer := none,
               signals := s.signals ++ [Sig.term],
               forceKillTimer := some 5000 }
    | none => s
  | TimerEvent.forceKillFires =>
    match s.forceKillTimer with
    | some _ =>
      { s with forceKillTimer := none, signals := s.signals ++ [Sig.kill] }
    | none => s
  | TimerEvent.procExits =>
    { s with exited := true, timeoutTimer := none, forceKillTimer := none }

/-- The configured concurrency ceiling (async-bash.ts, line 186):
`Math.max(1, opts.concurrency)`. -/
def maxConcurrencyOf (concurrency : Int) : Int := max 1 concurrency

/-- Progress-report interval in milliseconds (async-bash.ts, line 187):
`Math.max(1, opts.reportSeconds) * 1000`. -/
def reportMsOf (reportSeconds : Int) : Int := max 1 reportSeconds * 1000

/-- Observable actions of one scheduler tick: a progress report for a
running job, or the admission of a queued job. -/
inductive TickEvent
  | report (id : String)
  | admission (id : String)
deriving DecidableEq, Repr

/-- Whether a tick event is a progress report. -/
def TickEvent.isReport : TickEvent → Bool
  | TickEvent.report _ => true
  | TickEvent.admission _ => false

/-- Whether a tick event is a job admission. -/
def TickEvent.isAdmit : TickEvent → Bool
  | TickEvent.report _ => false
  | TickEvent.admission _ => true

/-- The report-interval test of `reportRunningJobs` (async-bash.ts,
line 398): a job is skipped when its last report time parses positive and
lies within the report interval; it is due otherwise. -/
def dueForReport (reportMs now : Nat) (j : AsyncBashJob) : Bool :=
  let last := parseTime (j.progress.getD {}).lastReportAt
  !(decide (0 < last) && decide (now - last < reportMs))

/-- The per-job mutation of a delivered progress report (async-bash.ts,
lines 417-421): bump `reportsSent`, refresh `lastReportAt`, zero the delta
counters, persist. -/
def reportJob (now : Nat) (j : AsyncBashJob) : AsyncBashJob :=
  let p := j.progress.getD {}
  let p1 : AsyncBashProgress :=
    { p with reportsSent := p.reportsSent + 1, lastReportAt := some now,
             deltaBytesSinceReport := 0, deltaLinesSinceReport := 0 }
  saveJob now { j with progress := some p1 }

/-- Phase one of a tick (async-bash.ts, lines 392-423): every running job
that is due gets one report event and the report mutation; the others are
untouched. -/
def reportRunningJobs (reportMs now : Nat) (running : List AsyncBashJob) :
    List AsyncBashJob × List TickEvent :=
  (running.map (fun j => if dueForReport reportMs now j then reportJob now j else j),
   (running.filter (dueForReport reportMs now)).map (fun j => TickEvent.report j.id))

/-- Phase two of a tick, `startQueuedJobs` (async-bash.ts, lines 425-434):
scan the stored jobs in order; stop as soon as the running set is at the
ceiling; skip jobs that are not `queued` or already running; start a worker
for each admitted job (which joins the running set before the scan
continues). Returns the final running set and the admission events. -/
def startQueuedJobs (outputDir : String) (now : Nat) (maxC : Int)
    (running : List AsyncBashJob) :
    List AsyncBashJob → List AsyncBashJob × List TickEvent
  | [] => (running, [])
  | j :: rest =>
    if (running.length : Int) ≥ maxC then (running, [])
    else if j.status ≠ AsyncBashStatus.queued then
      startQueuedJobs outputDir now maxC running rest
    else if j.id ∈ running.map AsyncBashJob.id then
      startQueuedJobs outputDir now maxC running rest
    else
      let r := startQueuedJobs outputDir now maxC
        (running ++ [startOneJobPrepJob outputDir j now]) rest
      (r.1, TickEvent.admission j.id :: r.2)

/-- Scheduler state seen by one tick: the reentrancy flag, the running set,
and the stored job descriptors. -/
structure SchedState where
  ticking : Bool
  running : List AsyncBashJob
  stored : List AsyncBashJob
deriving Repr

/-- One tick (async-bash.ts, lines 436-447): skipped entirely while the
`ticking` flag is set; otherwise progress reports for all running jobs run
first and queued jobs are admitted second. -/
def tick (outputDir : String) (reportMs now : Nat) (maxC : Int)
    (s : SchedState) : SchedState × List TickEvent :=
  if s.ticking then (s, [])
  else
    let rep := reportRunningJobs reportMs now s.running
    let adm := startQueuedJobs outputDir now maxC rep.1 s.stored
    ({ s with running := adm.1 }, rep.2 ++ adm.2)

/-- The tick reentrancy guard alone (async-bash.ts, lines 436-447 and 456):
the busy flag plus the number of tick bodies currently executing. -/
structure GuardState where
  ticking : Bool
  activeTicks : Nat
deriving DecidableEq, Repr

/-- A tick invocation fires (the `setInterval` callback): skipped while
busy, otherwise the flag is taken and one tick body starts. -/
def tickInvoke (s : GuardState) : GuardState :=
  if s.ticking then s
  else { ticking := true, activeTicks := s.activeTicks + 1 }

/-- A tick body finishes (the `finally` block): the flag is released. -/
def tickComplete (s : GuardState) : GuardState :=
  { s with ticking := false, activeTicks := s.activeTicks - 1 }

/-- Guard states reachable from startup: a completion only ever happens from
inside an executing tick body (the `finally` of the guarded block). -/
inductive GuardReach : GuardState → Prop
  | start : GuardReach { ticking := false, activeTicks := 0 }
  | invoke {s : GuardState} : GuardReach s → GuardReach (tickInvoke s)
  | complete {s : GuardState} : GuardReach s → s.ticking = true →
      GuardReach (tickComplete s)

/-- The atomic phases of the worker's completion block, in program order
(async-bash.ts, lines 337-383): assign the terminal fields; send the
completion notification; inject the result into the session; set
`completionNotifiedAt`; persist the record. -/
inductive FinStep
  | assignTerminal
  | notifyCompletion
  | injectContext
  | setNotifiedAt
  | persistRecord
deriving DecidableEq, Repr

/-- The completion block's phases in program order. -/
def finalizeSteps : List FinStep :=
  [FinStep.assignTerminal, FinStep.notifyCompletion, FinStep.injectContext,
   FinStep.setNotifiedAt, FinStep.persistRecord]

/-- A worker run as seen by the durability argument: the in-memory job, the
job as last persisted, and the number of completion messages handed to the
outbox so far. -/
structure WorkerRun where
  mem : AsyncBashJob
  disk : AsyncBashJob
  outboxCount : Nat
deriving DecidableEq, Repr

/-- Effect of one completion-block phase (async-bash.ts, lines 337-383).
Only `persistRecord` touches the disk; only `notifyCompletion` hands a
message to the outbox. -/
def finStep (timedOut : Bool) (w : WaitOutcome) (now : Nat) (s : WorkerRun) :
    FinStep → WorkerRun
  | FinStep.assignTerminal => { s with mem := finishJob s.mem timedOut w now }
  | FinStep.notifyCompletion => { s with outboxCount := s.outboxCount + 1 }
  | FinStep.injectContext => s
  | FinStep.setNotifiedAt =>
    { s with mem := { s.mem with completionNotifiedAt := some now } }
  | FinStep.persistRecord => { s with disk := saveJob now s.mem }

/-- Run the completion block until it crashes: only the first `crashAfter`
phases execute. `crashAfter ≥ 5` is a crash-free run. -/
def runFinalize (timedOut : Bool) (w : WaitOutcome) (now : Nat)
    (s : WorkerRun) (crashAfter : Nat) : WorkerRun :=
  (finalizeSteps.take crashAfter).foldl (finStep timedOut w now) s

/-- The recovery pass of the next process instance applied to the persisted
record (async-bash.ts, lines 232-245): a job found `running` with no
`completionNotifiedAt` is forced to failed and one completion notification
is delivered for it. -/
def recoverAndCount (now2 : Nat) (s : WorkerRun) : WorkerRun :=
  if s.disk.status = AsyncBashStatus.running ∧ s.disk.completionNotifiedAt = none then
    { s with disk := markInterruptedJob now2 s.disk,
             outboxCount := s.outboxCount + 1 }
  else s

/-- Total number of completion messages delivered for one job whose worker's
completion block crashed after `crashAfter` phases and whose store was then
swept by the recovery pass: `start` is the persisted `running` record at the
moment the completion block begins. -/
def completionMessages (start : AsyncBashJob) (timedOut : Bool)
    (w : WaitOutcome) (now now2 crashAfter : Nat) : Nat :=
  (recoverAndCount now2
    (runFinalize timedOut w now
      { mem := start, disk := start, outboxCount := 0 } crashAfter)).outboxCount

/-- The truncation marker inserted between head and tail
(async-bash.ts, line 128). -/
def truncMarkerBytes : List Char := "\n... [truncated] ...\n".data

/-- `readLogPreview` (async-bash.ts, lines 109-134) over the file's byte
content: a file within the budget is returned whole; a larger file yields
the first `maxBytes / 2` bytes, the marker, and the last `maxBytes / 2`
bytes, with the truncated flag set. -/
def readLogPreview (content : List Char) (maxBytes : Nat) :
    List Char × Bool :=
  let size := content.length
  if size ≤ maxBytes then (content, false)
  else
    let half := maxBytes / 2
    (content.take half ++ truncMarkerBytes ++ content.drop (size - half), true)

/-- C1: For every job whose worker reaches finalization, the terminal status
follows the precedence timedOut → timeout (with the timeout error message),
else exit code 0 → completed, else failed; and `finishedAt` and `exitCode`
are recorded in every case. -/
theorem c1_finalization_precedence (job : AsyncBashJob) (timedOut : Bool)
    (exitCode : Option Int) (now : Nat) :
    (finalizeJob job timedOut exitCode now).finishedAt = some now ∧
    (finalizeJob job timedOut exitCode now).exitCode = exitCode ∧
    (timedOut = true →
      (finalizeJob job timedOut exitCode now).status = AsyncBashStatus.timeout ∧
      (finalizeJob job timedOut exitCode now).error =
        some (timeoutErrorText job.timeoutMs)) ∧
    (timedOut = false → exitCode = some 0 →
      (finalizeJob job timedOut exitCode now).status = AsyncBashStatus.completed) ∧
    (timedOut = false → exitCode ≠ some 0 →
      (finalizeJob job timedOut exitCode now).status = AsyncBashStatus.failed) := by
  cases timedOut <;> by_cases h : exitCode = some 0 <;>
    simp [finalizeJob, h]

/-- Witness for C1 at a concrete job: a non-timed-out worker whose process
exited with code 0 finalizes as completed. -/
theorem c1_finalization_precedence_witness :
    (finalizeJob
      { id := "j1", command := "true", timeoutMs := 5000, createdAt := 1,
        updatedAt := 1, status := AsyncBashStatus.running, userID := "u" }
      false (some 0) 9).status = AsyncBashStatus.completed :=
  (c1_finalization_precedence
    { id := "j1", command := "true", timeoutMs := 5000, createdAt := 1,
      updatedAt := 1, status := AsyncBashStatus.running, userID := "u" }
    false (some 0) 9).2.2.2.1 rfl rfl

/-- C2: for a positive `timeoutMs` the first timer is armed for
`max 1000 timeoutMs` milliseconds; when it fires it sets `timedOut`, sends
the graceful SIGTERM and arms the 5000 ms force-kill timer; when that timer
fires it sends SIGKILL; process exit cancels both timers without sending
anything, and after the exit no timer event ever sends another signal. -/
theorem c2_timeout_escalation (timeoutMs defaultTimeoutMs : Nat)
    (s : TimerState) :
    (0 < timeoutMs →
      (initTimerState timeoutMs defaultTimeoutMs).timeoutTimer =
        some (max 1000 timeoutMs)) ∧
    (s.timeoutTimer ≠ none →
      (timerStep s TimerEvent.timeoutFires).timedOut = true ∧
      (timerStep s TimerEvent.timeoutFires).signals = s.signals ++ [Sig.term] ∧
      (timerStep s TimerEvent.timeoutFires).forceKillTimer = some 5000) ∧
    (s.forceKillTimer ≠ none →
      (timerStep s TimerEvent.forceKillFires).signals =
        s.signals ++ [Sig.kill]) ∧
    ((timerStep s TimerEvent.procExits).timeoutTimer = none ∧
      (timerStep s TimerEvent.procExits).forceKillTimer = none ∧
      (timerStep s TimerEvent.procExits).signals = s.signals) ∧
    (∀ e, (timerStep (timerStep s TimerEvent.procExits) e).signals =
      s.signals) := by
  refine ⟨?_, ?_, ?_, ?_, ?_⟩
  · intro h
    have hne : timeoutMs ≠ 0 := Nat.pos_iff_ne_zero.mp h
    simp [initTimerState, timerDurationMs, hne]
  · intro h
    cases htt : s.timeoutTimer with
    | none => exact absurd htt h
    | some d => simp [timerStep, htt]
  · intro h
    cases hfk : s.forceKillTimer with
    | none => exact absurd hfk h
    | some d => simp [timerStep, hfk]
  · simp [timerStep]
  · intro e
    cases e <;> simp [timerStep]

/-- Witness for C2: a 500 ms request arms the timer for 1000 ms. -/
theorem c2_timeout_escalation_witness :
    (initTimerState 500 86400000).timeoutTimer = some (max 1000 500) :=
  (c2_timeout_escalation 500 86400000
    (initTimerState 500 86400000)).1 (by decide)

/-- C4 counterexample: the recovery pass writes the error string
`Worker restarted while command was running.` (capital W and trailing
period), not the string stated by the claim. -/
theorem c4_error_text_counterexample :
    (markInterruptedJob 100
      { id := "j2", command := "sleep 60", timeoutMs := 1000, createdAt := 1,
        updatedAt := 1, status := AsyncBashStatus.running,
        userID := "u" }).error ≠
      some "worker restarted while command was running" ∧
    (markInterruptedJob 100
      { id := "j2", command := "sleep 60", timeoutMs := 1000, createdAt := 1,
        updatedAt := 1, status := AsyncBashStatus.running,
        userID := "u" }).error =
      some "Worker restarted while command was running." := by
  constructor
  · simp [markInterruptedJob, saveJob, restartedErrorText]
  · simp [markInterruptedJob, saveJob, restartedErrorText]

/-- C4 (amended): the recovery pass forces every persisted `running` job with
no `completionNotifiedAt` to `failed` with error
`Worker restarted while command was running.`, stamps `finishedAt` and
`completionNotifiedAt`, persists it (refreshing `updatedAt`), and delivers
exactly one completion notification per forced job; `running` jobs with
`completionNotifiedAt` set, and non-running jobs, are left unchanged. -/
theorem c4_recovery_pass (now : Nat) (jobs : List AsyncBashJob) :
    (∀ job : AsyncBashJob, job.status = AsyncBashStatus.running →
      job.completionNotifiedAt = none →
      (markInterruptedJob now job).status = AsyncBashStatus.failed ∧
      (markInterruptedJob now job).error = some restartedErrorText ∧
      (markInterruptedJob now job).finishedAt = some now ∧
      (markInterruptedJob now job).completionNotifiedAt = some now ∧
      (markInterruptedJob now job).updatedAt = now) ∧
    (∀ job : AsyncBashJob, job.completionNotifiedAt ≠ none →
      markInterruptedJob now job = job) ∧
    (∀ job : AsyncBashJob, job.status ≠ AsyncBashStatus.running →
      markInterruptedJob now job = job) ∧
    (markInterruptedJobs now jobs).1 = jobs.map (markInterruptedJob now) ∧
    (markInterruptedJobs now jobs).2 =
      (jobs.filter (fun j => decide (j.status = AsyncBashStatus.running ∧
        j.completionNotifiedAt = none))).length := by
  refine ⟨?_, ?_, ?_, ?_, ?_⟩
  · intro job hs hn
    simp [markInterruptedJob, saveJob, hs, hn]
  · intro job hn
    simp [markInterruptedJob, hn]
  · intro job hs
    simp [markInterruptedJob, hs]
  · induction jobs with
    | nil => simp [markInterruptedJobs]
    | cons j rest ih =>
      by_cases hc : j.status = AsyncBashStatus.running ∧
          j.completionNotifiedAt = none
      · simp [markInterruptedJobs, hc, ih, markInterruptedJob]
      · have hj : markInterruptedJob now j = j := by
          simp [markInterruptedJob, hc]
        simp [markInterruptedJobs, hc, ih, hj]
  · induction jobs with
    | nil => simp [markInterruptedJobs]
    | cons j rest ih =>
      by_cases hc : j.status = AsyncBashStatus.running ∧
          j.completionNotifiedAt = none
      · simp [markInterruptedJobs, hc, ih]
      · simp [markInterruptedJobs, hc, ih]

/-- Witness for C4 (amended): a concrete stuck running job is forced to
failed by the recovery pass. -/
theorem c4_recovery_pass_witness :
    (markInterruptedJob 7
      { id := "jw", command := "c", timeoutMs := 1000, createdAt := 1,
        updatedAt := 1, status := AsyncBashStatus.running,
        userID := "u" }).status = AsyncBashStatus.failed :=
  ((c4_recovery_pass 7 []).1
    { id := "jw", command := "c", timeoutMs := 1000, createdAt := 1,
      updatedAt := 1, status := AsyncBashStatus.running, userID := "u" }
    rfl rfl).1

/-- The running set never grows past the ceiling: if it starts at or below
`maxC`, it is still at or below `maxC` after admission. -/
theorem startQueuedJobs_length_le (outputDir : String) (now : Nat)
    (maxC : Int) (running stored : List AsyncBashJob)
    (h : (running.length : Int) ≤ maxC) :
    (((startQueuedJobs outputDir now maxC running stored).1.length : Int)
      ≤ maxC) := by
  induction stored generalizing running with
  | nil => simpa [startQueuedJobs] using h
  | cons j rest ih =>
    by_cases hcap : (running.length : Int) ≥ maxC
    · simpa [startQueuedJobs, hcap] using h
    · by_cases hst : j.status = AsyncBashStatus.queued
      · by_cases hmem : j.id ∈ running.map AsyncBashJob.id
        · simpa [startQueuedJobs, hcap, hst, hmem] using ih running h
        · have h1 : (((running ++
              [startOneJobPrepJob outputDir j now]).length : Int)) ≤ maxC := by
            push_neg at hcap
            simp only [List.length_append, List.length_cons, List.length_nil]
            push_cast
            omega
          simpa [startQueuedJobs, hcap, hst, hmem] using
            ih (running ++ [startOneJobPrepJob outputDir j now]) h1
      · simpa [startQueuedJobs, hcap, hst] using ih running h

/-- Every admission event names a stored job that was `queued`. -/
theorem startQueuedJobs_admit_from_queued (outputDir : String) (now : Nat)
    (maxC : Int) (running stored : List AsyncBashJob) (id : String)
    (h : TickEvent.admission id ∈
      (startQueuedJobs outputDir now maxC running stored).2) :
    ∃ j ∈ stored, j.id = id ∧ j.status = AsyncBashStatus.queued := by
  induction stored generalizing running with
  | nil => simp [startQueuedJobs] at h
  | cons j rest ih =>
    by_cases hcap : (running.length : Int) ≥ maxC
    · simp [startQueuedJobs, hcap] at h
    · by_cases hst : j.status = AsyncBashStatus.queued
      · by_cases hmem : j.id ∈ running.map AsyncBashJob.id
        · simp only [startQueuedJobs, if_neg hcap] at h
          rw [if_neg (by simp [hst]), if_pos hmem] at h
          obtain ⟨w, hw, hid, hq⟩ := ih running h
          exact ⟨w, List.mem_cons_of_mem _ hw, hid, hq⟩
        · simp only [startQueuedJobs, if_neg hcap] at h
          rw [if_neg (by simp [hst]), if_neg hmem] at h
          simp only [List.mem_cons] at h
          rcases h with h | h
          · have hid : id = j.id := by
              simpa using h
            exact ⟨j, List.mem_cons_self _ _, hid.symm, hst⟩
          · obtain ⟨w, hw, hid, hq⟩ :=
              ih (running ++ [startOneJobPrepJob outputDir j now]) h
            exact ⟨w, List.mem_cons_of_mem _ hw, hid, hq⟩
      · simp only [startQueuedJobs, if_neg hcap] at h
        rw [if_pos (by simp [hst])] at h
        obtain ⟨w, hw, hid, hq⟩ := ih running h
        exact ⟨w, List.mem_cons_of_mem _ hw, hid, hq⟩

/-- C3: the concurrency ceiling is `max 1 concurrency`, hence at least 1,
with configured values below 1 treated as 1; if the running set respects the
ceiling before admission it still does afterwards (so the number of active
workers never exceeds it, whatever the queue depth); and every admitted job
was a stored `queued` job. -/
theorem c3_concurrency_ceiling (concurrency : Int) (outputDir : String)
    (now : Nat) (running stored : List AsyncBashJob) :
    1 ≤ maxConcurrencyOf concurrency ∧
    (concurrency < 1 → maxConcurrencyOf concurrency = 1) ∧
    ((running.length : Int) ≤ maxConcurrencyOf concurrency →
      (((startQueuedJobs outputDir now (maxConcurrencyOf concurrency)
        running stored).1.length : Int) ≤ maxConcurrencyOf concurrency)) ∧
    (∀ id, TickEvent.admission id ∈
        (startQueuedJobs outputDir now (maxConcurrencyOf concurrency)
          running stored).2 →
      ∃ j ∈ stored, j.id = id ∧ j.status = AsyncBashStatus.queued) := by
  refine ⟨?_, ?_, ?_, ?_⟩
  · exact le_max_left 1 concurrency
  · intro h
    exact max_eq_left (le_of_lt h)
  · intro h
    exact startQueuedJobs_length_le outputDir now _ running stored h
  · intro id h
    exact startQueuedJobs_admit_from_queued outputDir now _ running stored id h

/-- Witness for C3: with a configured concurrency of 0 the ceiling is 1, and
admitting from a two-job queue into an empty running set stays at one
worker. -/
theorem c3_concurrency_ceiling_witness :
    (((startQueuedJobs "out" 5 (maxConcurrencyOf 0) []
      [{ id := "a", command := "c1", timeoutMs := 1000, createdAt := 1,
         updatedAt := 1, status := AsyncBashStatus.queued, userID := "u" },
       { id := "b", command := "c2", timeoutMs := 1000, createdAt := 2,
         updatedAt := 2, status := AsyncBashStatus.queued,
         userID := "u" }]).1.length : Int) ≤ maxConcurrencyOf 0) :=
  (c3_concurrency_ceiling 0 "out" 5 []
    [{ id := "a", command := "c1", timeoutMs := 1000, createdAt := 1,
       updatedAt := 1, status := AsyncBashStatus.queued, userID := "u" },
     { id := "b", command := "c2", timeoutMs := 1000, createdAt := 2,
       updatedAt := 2, status := AsyncBashStatus.queued,
       userID := "u" }]).2.2.1 (by simp [maxConcurrencyOf])

/-- C5 counterexample: when `Bun.spawn` throws, the job does not reach
status `failed` — the spawn call is not guarded inside `startOneJob`, the
exception propagates to the tick (which only logs it), and the last
persisted record still has status `running` with no error recorded. -/
theorem c5_spawn_error_counterexample :
    (runWorker "out"
      { id := "j5", command := "x", timeoutMs := 1000, createdAt := 1,
        updatedAt := 1, status := AsyncBashStatus.queued, userID := "u" }
      10 20 (SpawnOutcome.spawnError "boom") false
      (WaitOutcome.exited none)).status ≠ AsyncBashStatus.failed ∧
    (runWorker "out"
      { id := "j5", command := "x", timeoutMs := 1000, createdAt := 1,
        updatedAt := 1, status := AsyncBashStatus.queued, userID := "u" }
      10 20 (SpawnOutcome.spawnError "boom") false
      (WaitOutcome.exited none)).status = AsyncBashStatus.running ∧
    (runWorker "out"
      { id := "j5", command := "x", timeoutMs := 1000, createdAt := 1,
        updatedAt := 1, status := AsyncBashStatus.queued, userID := "u" }
      10 20 (SpawnOutcome.spawnError "boom") false
      (WaitOutcome.exited none)).error = none := by
  refine ⟨?_, ?_, ?_⟩ <;>
    simp [runWorker, startOneJobPrepJob, saveJob]

/-- C5 (amended): an exception thrown while waiting on the process (before
an exit code was read) finalizes the job as `failed` with the exception
message in `error`, provided the timeout has not fired; the same holds for a
pump exception thrown after a non-zero (or absent) exit code was read. An
exception thrown by the spawn call itself, however, escapes `startOneJob`
and is only logged by the tick: the job's last persisted record keeps
status `running` and an untouched `error` field until a later restart's
recovery pass picks it up. -/
theorem c5_exception_handling (outputDir : String) (job : AsyncBashJob)
    (now finishNow : Nat) (timedOut : Bool) (w : WaitOutcome) :
    (∀ m, runWorker outputDir job now finishNow (SpawnOutcome.spawnError m)
        timedOut w = startOneJobPrepJob outputDir job now ∧
      (runWorker outputDir job now finishNow (SpawnOutcome.spawnError m)
        timedOut w).status = AsyncBashStatus.running ∧
      (runWorker outputDir job now finishNow (SpawnOutcome.spawnError m)
        timedOut w).error = job.error) ∧
    (∀ m,
      (runWorker outputDir job now finishNow SpawnOutcome.ok false
        (WaitOutcome.exitError m)).status = AsyncBashStatus.failed ∧
      (runWorker outputDir job now finishNow SpawnOutcome.ok false
        (WaitOutcome.exitError m)).error = some m) ∧
    (∀ c m, c ≠ some 0 →
      (runWorker outputDir job now finishNow SpawnOutcome.ok false
        (WaitOutcome.pumpError c m)).status = AsyncBashStatus.failed ∧
      (runWorker outputDir job now finishNow SpawnOutcome.ok false
        (WaitOutcome.pumpError c m)).error = some m) := by
  refine ⟨?_, ?_, ?_⟩
  · intro m
    refine ⟨rfl, ?_, ?_⟩ <;> simp [runWorker, startOneJobPrepJob, saveJob]
  · intro m
    constructor <;> simp [runWorker, finishJob, finalizeJob, saveJob]
  · intro c m hc
    constructor <;> simp [runWorker, finishJob, finalizeJob, saveJob, hc]

/-- Witness for C5 (amended): a concrete wait exception with no exit code
finalizes the job as failed with the message recorded. -/
theorem c5_exception_handling_witness :
    (runWorker "out"
      { id := "jw5", command := "x", timeoutMs := 1000, createdAt := 1,
        updatedAt := 1, status := AsyncBashStatus.queued, userID := "u" }
      10 20 SpawnOutcome.ok false
      (WaitOutcome.pumpError none "broken pipe")).error = some "broken pipe" :=
  ((c5_exception_handling "out"
    { id := "jw5", command := "x", timeoutMs := 1000, createdAt := 1,
      updatedAt := 1, status := AsyncBashStatus.queued, userID := "u" }
    10 20 false (WaitOutcome.exited none)).2.2 none "broken pipe"
    (by simp)).2

/-- Every phase-one event of a tick is a progress report. -/
theorem reportRunningJobs_events_report (reportMs now : Nat)
    (running : List AsyncBashJob) :
    ∀ e ∈ (reportRunningJobs reportMs now running).2, e.isReport = true := by
  intro e he
  simp only [reportRunningJobs, List.mem_map] at he
  obtain ⟨j, hj, rfl⟩ := he
  rfl

/-- Every phase-two event of a tick is an admission. -/
theorem startQueuedJobs_admission_events (outputDir : String) (now : Nat)
    (maxC : Int) (running stored : List AsyncBashJob) :
    ∀ e ∈ (startQueuedJobs outputDir now maxC running stored).2,
      e.isAdmit = true := by
  induction stored generalizing running with
  | nil => intro e he; simp [startQueuedJobs] at he
  | cons j rest ih =>
    intro e he
    by_cases hcap : (running.length : Int) ≥ maxC
    · simp [startQueuedJobs, hcap] at he
    · by_cases hst : j.status = AsyncBashStatus.queued
      · by_cases hmem : j.id ∈ running.map AsyncBashJob.id
        · simp only [startQueuedJobs, if_neg hcap] at he
          rw [if_neg (by simp [hst]), if_pos hmem] at he
          exact ih running e he
        · simp only [startQueuedJobs, if_neg hcap] at he
          rw [if_neg (by simp [hst]), if_neg hmem] at he
          simp only [List.mem_cons] at he
          rcases he with rfl | he
          · rfl
          · exact ih (running ++ [startOneJobPrepJob outputDir j now]) e he
      · simp only [startQueuedJobs, if_neg hcap] at he
        rw [if_pos (by simp [hst])] at he
        exact ih running e he

/-- In a concatenation of a `P`-block followed by a `Q`-block, with `P` and
`Q` mutually exclusive, every `P`-position is strictly before every
`Q`-position. -/
theorem phase_split_before {α : Type} (P Q : α → Bool) (evs xs ys : List α)
    (hevs : evs = xs ++ ys)
    (hx : ∀ e ∈ xs, P e = true) (hy : ∀ e ∈ ys, Q e = true)
    (hPQ : ∀ e, P e = true → Q e = true → False)
    (i j : Nat) (hi : i < evs.length) (hj : j < evs.length)
    (hPi : P evs[i] = true) (hQj : Q evs[j] = true) : i < j := by
  subst hevs
  have hjge : xs.length ≤ j := by
    by_contra hlt
    push_neg at hlt
    have heq : (xs ++ ys)[j] = xs[j] := List.getElem_append_left hlt
    exact hPQ _ (hx _ (List.getElem_mem hlt)) (heq ▸ hQj)
  have hilt : i < xs.length := by
    by_contra hge
    push_neg at hge
    have hlen : i - xs.length < ys.length := by
      have := hi
      simp only [List.length_append] at this
      omega
    have heq : (xs ++ ys)[i] = ys[i - xs.length] :=
      List.getElem_append_right hge
    exact hPQ _ (heq ▸ hPi) (hy _ (List.getElem_mem hlen))
  omega

/-- The guard invariant: exactly one tick body is executing while the busy
flag is set, none while it is clear. -/
theorem guardReach_inv {g : GuardState} (h : GuardReach g) :
    g.activeTicks = if g.ticking then 1 else 0 := by
  induction h with
  | start => rfl
  | @invoke s hr ih =>
    by_cases hts : s.ticking
    · simp [tickInvoke, hts, ih]
    · simp [tickInvoke, hts] at ih ⊢
      simp [ih]
  | @complete s hr ht ih =>
    simp [tickComplete, ht] at ih ⊢
    simp [ih]

/-- C6: while the reentrancy flag is set a tick invocation is skipped
entirely, leaving the state unchanged and producing no events; within one
executed tick every progress-report event happens strictly before every
admission event; and the busy/idle flag keeps the number of concurrently
executing tick bodies at most one in every reachable guard state. -/
theorem c6_tick_serialization (outputDir : String) (reportMs now : Nat)
    (maxC : Int) (s : SchedState) (g : GuardState) :
    (s.ticking = true → tick outputDir reportMs now maxC s = (s, [])) ∧
    (∀ i j, ∀ hi : i < (tick outputDir reportMs now maxC s).2.length,
      ∀ hj : j < (tick outputDir reportMs now maxC s).2.length,
      ((tick outputDir reportMs now maxC s).2[i]).isReport = true →
      ((tick outputDir reportMs now maxC s).2[j]).isAdmit = true →
      i < j) ∧
    (GuardReach g → g.activeTicks ≤ 1) ∧
    (g.ticking = true → tickInvoke g = g) := by
  refine ⟨?_, ?_, ?_, ?_⟩
  · intro h
    simp [tick, h]
  · intro i j hi hj hPi hQj
    by_cases htk : s.ticking
    · simp [tick, htk] at hi
    · refine phase_split_before TickEvent.isReport TickEvent.isAdmit _
        (reportRunningJobs reportMs now s.running).2
        (startQueuedJobs outputDir now maxC
          (reportRunningJobs reportMs now s.running).1 s.stored).2
        (by simp [tick, htk])
        (reportRunningJobs_events_report reportMs now s.running)
        (startQueuedJobs_admission_events outputDir now maxC _ s.stored)
        ?_ i j hi hj hPi hQj
      intro e hP hQ
      cases e <;> simp [TickEvent.isReport, TickEvent.isAdmit] at hP hQ
  · intro hr
    have := guardReach_inv hr
    by_cases ht : g.ticking <;> simp [ht] at this <;> omega
  · intro h
    simp [tickInvoke, h]

/-- Witness for C6: a tick arriving while the flag is set is skipped with no
events. -/
theorem c6_tick_serialization_witness :
    tick "out" 60000 5 2 { ticking := true, running := [], stored := [] } =
      ({ ticking := true, running := [], stored := [] }, []) :=
  (c6_tick_serialization "out" 60000 5 2
    { ticking := true, running := [], stored := [] }
    { ticking := false, activeTicks := 0 }).1 rfl

/-- C7 counterexample: if the process hosting the scheduler restarts after
the worker's completion notification was sent but before the record with
`completionNotifiedAt` was persisted (crash after phase 4 of 5), the next
start's recovery pass notifies again: the job's recipient receives two
completion messages, not exactly one. -/
theorem c7_duplicate_notification_counterexample :
    completionMessages
      { id := "j7", command := "sleep 1", timeoutMs := 1000, createdAt := 1,
        updatedAt := 2, status := AsyncBashStatus.running, userID := "u" }
      false (WaitOutcome.exited (some 0)) 10 20 4 = 2 ∧
    completionMessages
      { id := "j7", command := "sleep 1", timeoutMs := 1000, createdAt := 1,
        updatedAt := 2, status := AsyncBashStatus.running, userID := "u" }
      false (WaitOutcome.exited (some 0)) 10 20 4 ≠ 1 := by
  constructor <;> decide

/-- C7 (amended): for every job whose worker reaches the completion block,
at least one and at most two completion messages are delivered across a
possible crash-restart (the recovery pass resupplying a missing one), and
exactly one is delivered when the completion block runs to the final
persist without a crash. -/
theorem c7_completion_delivery (start : AsyncBashJob) (timedOut : Bool)
    (w : WaitOutcome) (now now2 crashAfter : Nat)
    (hrun : start.status = AsyncBashStatus.running)
    (hnot : start.completionNotifiedAt = none) :
    1 ≤ completionMessages start timedOut w now now2 crashAfter ∧
    completionMessages start timedOut w now now2 crashAfter ≤ 2 ∧
    (5 ≤ crashAfter →
      completionMessages start timedOut w now now2 crashAfter = 1) := by
  rcases crashAfter with _|_|_|_|_|n
  · have h : completionMessages start timedOut w now now2 0 = 1 := by
      simp [completionMessages, runFinalize, finalizeSteps, finStep,
        recoverAndCount, hrun, hnot]
    rw [h]
    omega
  · have h : completionMessages start timedOut w now now2 1 = 1 := by
      simp [completionMessages, runFinalize, finalizeSteps, finStep,
        recoverAndCount, hrun, hnot]
    rw [h]
    omega
  · have h : completionMessages start timedOut w now now2 2 = 2 := by
      simp [completionMessages, runFinalize, finalizeSteps, finStep,
        recoverAndCount, hrun, hnot]
    rw [h]
    omega
  · have h : completionMessages start timedOut w now now2 3 = 2 := by
      simp [completionMessages, runFinalize, finalizeSteps, finStep,
        recoverAndCount, hrun, hnot]
    rw [h]
    omega
  · have h : completionMessages start timedOut w now now2 4 = 2 := by
      simp [completionMessages, runFinalize, finalizeSteps, finStep,
        recoverAndCount, hrun, hnot]
    rw [h]
    omega
  · have hlen : finalizeSteps.length ≤ n + 5 := by
      simp [finalizeSteps]
    have h : completionMessages start timedOut w now now2 (n + 5) = 1 := by
      simp [completionMessages, runFinalize, List.take_of_length_le hlen,
        finalizeSteps, finStep, recoverAndCount, saveJob]
    rw [h]
    omega

/-- Witness for C7 (amended): a crash-free completion block delivers exactly
one message for a concrete running job. -/
theorem c7_completion_delivery_witness :
    completionMessages
      { id := "jw7", command := "c", timeoutMs := 1000, createdAt := 1,
        updatedAt := 2, status := AsyncBashStatus.running, userID := "u" }
      false (WaitOutcome.exited (some 0)) 10 20 5 = 1 :=
  (c7_completion_delivery
    { id := "jw7", command := "c", timeoutMs := 1000, createdAt := 1,
      updatedAt := 2, status := AsyncBashStatus.running, userID := "u" }
    false (WaitOutcome.exited (some 0)) 10 20 5 rfl rfl).2.2 (by omega)

/-- C8 counterexample: finalization records the subprocess exit code before
choosing the status, so a timed-out job whose shell reported exit code 143
(128+SIGTERM) is persisted with status `timeout` and a non-null
`exitCode`. -/
theorem c8_timeout_exitcode_counterexample :
    (finalizeJob
      { id := "j8", command := "sleep 10", timeoutMs := 500, createdAt := 1,
        updatedAt := 1, status := AsyncBashStatus.running, userID := "u" }
      true (some 143) 9).status = AsyncBashStatus.timeout ∧
    (finalizeJob
      { id := "j8", command := "sleep 10", timeoutMs := 500, createdAt := 1,
        updatedAt := 1, status := AsyncBashStatus.running, userID := "u" }
      true (some 143) 9).exitCode ≠ none := by
  constructor <;> simp [finalizeJob]

/-- C8 (amended): `exitCode` is absent while status is `queued` (as
enqueued) and is not touched by the transition to `running`; at
finalization the exit code reported by the subprocess is recorded
unconditionally, for `completed`, `failed` and `timeout` alike — so a
`timeout` job carries null only when the process reported no exit code. -/
theorem c8_exitcode_lifecycle (id command : String) (workdir : Option String)
    (timeoutMsRaw : Nat) (userID : String) (sessionID : Option String)
    (now now2 : Nat) (outputDir : String) (job : AsyncBashJob)
    (timedOut : Bool) (ec : Option Int) :
    (enqueueJob id command workdir timeoutMsRaw userID sessionID now).exitCode
      = none ∧
    (enqueueJob id command workdir timeoutMsRaw userID sessionID now).status
      = AsyncBashStatus.queued ∧
    (startOneJobPrepJob outputDir job now2).exitCode = job.exitCode ∧
    (startOneJobPrepJob outputDir job now2).status =
      AsyncBashStatus.running ∧
    (finalizeJob job timedOut ec now2).exitCode = ec := by
  refine ⟨rfl, rfl, ?_, ?_, ?_⟩
  · simp [startOneJobPrepJob, saveJob]
  · simp [startOneJobPrepJob, saveJob]
  · cases timedOut <;> by_cases h : ec = some 0 <;> simp [finalizeJob, h]

/-- C9: a file at most 8000 bytes long is previewed whole with the truncated
flag clear; a larger file is previewed as the first 4000 bytes, the
truncation marker, and the last 4000 bytes — the flag is set, the marker
occurs in the text, and the total size is 4000 + marker + 4000 bytes. -/
theorem c9_log_preview (content : List Char) :
    (content.length ≤ 8000 → readLogPreview content 8000 = (content, false)) ∧
    (8000 < content.length →
      (readLogPreview content 8000).2 = true ∧
      List.IsInfix truncMarkerBytes (readLogPreview content 8000).1 ∧
      (readLogPreview content 8000).1.length =
        4000 + truncMarkerBytes.length + 4000) := by
  constructor
  · intro h
    simp [readLogPreview, h]
  · intro h
    have hn : ¬ content.length ≤ 8000 := by omega
    refine ⟨by simp [readLogPreview, hn], ?_, ?_⟩
    · refine ⟨content.take 4000, content.drop (content.length - 4000), ?_⟩
      simp [readLogPreview, hn, List.append_assoc]
    · simp only [readLogPreview, if_neg hn]
      simp [List.length_take, List.length_drop]
      omega

/-- Witness for C9: the empty file is previewed whole, and a file of 8001
bytes is previewed with the truncated flag set. -/
theorem c9_log_preview_witness :
    readLogPreview [] 8000 = ([], false) ∧
    (readLogPreview (List.replicate 8001 'a') 8000).2 = true :=
  ⟨(c9_log_preview []).1 (by simp),
   ((c9_log_preview (List.replicate 8001 'a')).2
     (by rw [List.length_replicate]; omega)).1⟩

/-- C10: a job descriptor that reaches admission with a non-blank
`outputFile` keeps that very path — the header block and every subsequent
output chunk are appended to the existing file, preserving its prior
content; a fresh `<queueDir>/output/<id>.log` path is chosen only when
`outputFile` is absent or blank after trimming; and the chosen path is
recorded on the job. -/
theorem c10_output_file_reuse (queueDir : String) (job : AsyncBashJob)
    (fs : LogFS) (now : Nat) (chunk : List Char) (nowChunk : Nat) :
    (∀ f, job.outputFile = some f → 0 < (jsTrim f).length →
      chooseOutputFile (outputDirOf queueDir) job = f ∧
      startOneJobPrepFS (outputDirOf queueDir) job fs now f =
        fs f ++ (headerText job.id job.command now).data ∧
      (onChunk f job fs chunk nowChunk).2 f = fs f ++ chunk) ∧
    (job.outputFile = none →
      chooseOutputFile (outputDirOf queueDir) job =
        joinPath [outputDirOf queueDir, job.id ++ ".log"]) ∧
    (∀ f, job.outputFile = some f → (jsTrim f).length = 0 →
      chooseOutputFile (outputDirOf queueDir) job =
        joinPath [outputDirOf queueDir, job.id ++ ".log"]) ∧
    (startOneJobPrepJob (outputDirOf queueDir) job now).outputFile =
      some (chooseOutputFile (outputDirOf queueDir) job) := by
  refine ⟨?_, ?_, ?_, ?_⟩
  · intro f hf htrim
    have hc : chooseOutputFile (outputDirOf queueDir) job = f := by
      simp [chooseOutputFile, hf, htrim]
    refine ⟨hc, ?_, ?_⟩
    · simp [startOneJobPrepFS, fsAppend, hc]
    · simp [onChunk, fsAppend]
  · intro hf
    simp [chooseOutputFile, hf]
  · intro f hf htrim
    simp [chooseOutputFile, hf, htrim]
  · simp [startOneJobPrepJob, saveJob]

/-- Witness for C10: a descriptor carrying `/tmp/existing.log` keeps it, and
the header is appended to that file's prior content. -/
theorem c10_output_file_reuse_witness :
    chooseOutputFile (outputDirOf "q")
      { id := "jx", command := "c", timeoutMs := 1000, createdAt := 1,
        updatedAt := 1, status := AsyncBashStatus.queued, userID := "u",
        outputFile := some "/tmp/existing.log" } = "/tmp/existing.log" :=
  ((c10_output_file_reuse "q"
    { id := "jx", command := "c", timeoutMs := 1000, createdAt := 1,
      updatedAt := 1, status := AsyncBashStatus.queued, userID := "u",
      outputFile := some "/tmp/existing.log" }
    (fun _ => []) 3 [] 4).1 "/tmp/existing.log" rfl (by decide)).1
